import Mathlib

/-!
Shallow embedding of `src/main.py`: a tick-based subway simulation.
Stations generate random passengers each tick, trains move along a line
of `len(E)` positions, boarding and alighting passengers at stations,
and two global metric lists (`ELAPSED_TIMES`, `DEPARTURE_TIME`)
accumulate travel and waiting times.

Randomness is modelled by an explicit entropy oracle:
`random.randint(a, b)` maps one entropy value into the inclusive range
`[a, b]`, and `random.sample(population, 1)[0]` maps one entropy value
to an index of the population (raising `ValueError` when the population
is empty).  Python's fallible operations (`assert`, `%` by zero on
ints, division by zero, `random.sample` on an empty collection) are
embedded with `Except String`, carrying the Python exception name.
-/

namespace Osiris

/-- Passenger dataclass: `destination` and `start` (the global `MINUTE`
at creation time, i.e. the creation tick). -/
structure Passenger where
  destination : Int
  start : Int
deriving DecidableEq, Repr

/-- Method `Passenger.time_elapsed`: returns `MINUTE - self.start`,
with the global `MINUTE` passed explicitly. -/
def Passenger.time_elapsed (p : Passenger) (minute : Int) : Int :=
  minute - p.start

/-- Station dataclass: waiting passengers and a fixed track position. -/
structure Station where
  passengers : List Passenger
  position : Int
deriving DecidableEq, Repr

/-- Train dataclass: position, direction, onboard passengers, and the
dwell flag `should_depart` (default `True`, as in the dataclass). -/
structure Train where
  position : Int
  direction : Int
  passengers : List Passenger := []
  should_depart : Bool := true
deriving DecidableEq, Repr

/-- Model of `random.randint(a, b)`: one entropy value mapped into the
inclusive range `[a, b]`. -/
def randint (a b : Int) (entropy : Nat) : Int :=
  a + ((entropy % (b - a + 1).toNat : Nat) : Int)

/-- Model of `random.sample(population, 1)[0]`: raises `ValueError` on
an empty population, otherwise returns the element selected by the
entropy value. -/
def sample1 (population : List Int) (entropy : Nat) : Except String Int :=
  if population.isEmpty then .error "ValueError"
  else .ok (population.getD (entropy % population.length) 0)

/-- The `for _ in range(n_passengers)` loop of
`Station.receive_passengers`: `k` iterations remain, `i` is the index
of the next entropy draw, and `acc` is the station's passenger list
built so far. -/
def receiveLoop (destinations : List Int) (minute : Int) (entropy : Nat → Nat) :
    Nat → Nat → List Passenger → Except String (List Passenger)
  | _, 0, acc => .ok acc
  | i, Nat.succ k, acc =>
    match sample1 destinations (entropy i) with
    | .error e => .error e
    | .ok destination =>
      receiveLoop destinations minute entropy (i + 1) k
        (acc ++ [{ destination := destination, start := minute }])

/-- Method `Station.receive_passengers`: draw `n_passengers` with
`randint(0, 10)`, then append that many fresh passengers, each with a
destination sampled from the subway's station keys minus this
station's own position, and `start` equal to the current `MINUTE`. -/
def Station.receive_passengers (st : Station) (stationKeys : List Int)
    (minute : Int) (entropy : Nat → Nat) : Except String Station :=
  let destinations := stationKeys.filter (fun q => decide (q ≠ st.position))
  let n_passengers := (randint 0 10 (entropy 0)).toNat
  match receiveLoop destinations minute (fun i => entropy (i + 1)) 0 n_passengers
      st.passengers with
  | .error e => .error e
  | .ok ps => .ok { st with passengers := ps }

/-- The boarding condition of `Train.take_passengers`: the passenger's
side (`self.position < passenger.destination`) must equal the train's
direction of travel (`self.direction == 1`). -/
def boards (t : Train) (p : Passenger) : Bool :=
  let passenger_dir := decide (t.position < p.destination)
  let train_dir := t.direction == 1
  train_dir == passenger_dir

/-- Method `Train.take_passengers`: loop over the station's waiting
list; matching passengers board (their waiting time is appended to
`DEPARTURE_TIME`), the rest stay in the station. -/
def Train.take_passengers (t : Train) (station : Station) (minute : Int)
    (departure_time : List Int) : Train × Station × List Int :=
  let acc := station.passengers.foldl
    (fun (acc : List Passenger × List Passenger × List Int) passenger =>
      if boards t passenger then
        (acc.1 ++ [passenger], acc.2.1, acc.2.2 ++ [passenger.time_elapsed minute])
      else
        (acc.1, acc.2.1 ++ [passenger], acc.2.2))
    (t.passengers, [], departure_time)
  ({ t with passengers := acc.1 }, { station with passengers := acc.2.1 }, acc.2.2)

/-- Method `Train.leave_passengers`: onboard passengers whose
destination equals the train's position alight (their travel time is
appended to `ELAPSED_TIMES`); the rest stay onboard. -/
def Train.leave_passengers (t : Train) (minute : Int) (elapsed_times : List Int) :
    Train × List Int :=
  let acc := t.passengers.foldl
    (fun (acc : List Passenger × List Int) passenger =>
      if passenger.destination = t.position then
        (acc.1, acc.2 ++ [passenger.time_elapsed minute])
      else
        (acc.1 ++ [passenger], acc.2))
    ([], elapsed_times)
  ({ t with passengers := acc.1 }, acc.2)

/-- Subway: the raw track flag list `positions` (the `E` argument), the
stations keyed by position in insertion order, and the trains. -/
structure Subway where
  positions : List Int
  stations : List Station
  trains : List Train
deriving DecidableEq, Repr

/-- Constructor `Subway.__init__`: build a station (with an empty
waiting list) for every truthy (nonzero) entry of the track list `E`.
No validation of any kind is performed. -/
def Subway.init (E : List Int) (trains : List Train) : Subway :=
  { positions := E
    stations := E.enum.filterMap (fun pe =>
      if pe.2 ≠ 0 then some { passengers := [], position := (pe.1 : Int) } else none)
    trains := trains }

/-- Dictionary lookup `self.stations.get(position)`. -/
def Subway.getStation (sub : Subway) (p : Int) : Option Station :=
  sub.stations.find? (fun st => st.position == p)

/-- Writing a mutated station back into the dictionary (in-place
mutation of the station object in Python). -/
def Subway.setStation (sub : Subway) (st : Station) : Subway :=
  { sub with stations := sub.stations.map (fun s => if s.position == st.position then st else s) }

/-- The station keys `set(subway.stations)`: the station positions. -/
def Subway.stationKeys (sub : Subway) : List Int :=
  sub.stations.map (fun st => st.position)

/-- Method `Subway.left_length` (informational helper, unused by the
simulation loop). -/
def Subway.left_length (sub : Subway) (departure destination : Int) : Int :=
  ((sub.positions.length : Int) + destination - departure) % (sub.positions.length : Int)

/-- The motion tail of `Train.advance`: clear the dwell flag, move one
step in `direction`, flip the direction when the new position is a
multiple of `len(subway.positions) - 1`, and check the two bounds
assertions.  Python's `%` with a zero modulus raises
`ZeroDivisionError`. -/
def Train.move (t : Train) (sub : Subway) : Except String Train :=
  let modulus := (sub.positions.length : Int) - 1
  if modulus = 0 then .error "ZeroDivisionError"
  else
    let position := t.position + t.direction
    let switch_direction := position % modulus = 0
    let direction := if switch_direction then -t.direction else t.direction
    if position < (sub.positions.length : Int) then
      if 0 ≤ position then
        .ok { t with position := position, direction := direction, should_depart := false }
      else .error "AssertionError"
    else .error "AssertionError"

/-- Method `Train.advance`: at a station with the dwell flag clear,
exchange passengers (alight, then board) and set the flag without
moving; in every other case, move. -/
def Train.advance (t : Train) (sub : Subway) (minute : Int)
    (elapsed_times departure_time : List Int) :
    Except String (Train × Subway × List Int × List Int) :=
  match sub.getStation t.position with
  | some station =>
    if t.should_depart then
      match t.move sub with
      | .error e => .error e
      | .ok t2 => .ok (t2, sub, elapsed_times, departure_time)
    else
      let r1 := t.leave_passengers minute elapsed_times
      let r2 := r1.1.take_passengers station minute departure_time
      .ok ({ r2.1 with should_depart := true }, sub.setStation r2.2.1, r1.2, r2.2.2)
  | none =>
    match t.move sub with
    | .error e => .error e
    | .ok t2 => .ok (t2, sub, elapsed_times, departure_time)

/-- The global mutable state of the script: the subway, `MINUTE`,
`ELAPSED_TIMES` and `DEPARTURE_TIME`. -/
structure SimState where
  subway : Subway
  minute : Int
  elapsed_times : List Int
  departure_time : List Int
deriving DecidableEq, Repr

/-- The stations loop of `Subway.next`: every station receives
passengers, entropy indexed by tick and station position. -/
def receiveAll (stationKeys : List Int) (minute : Int)
    (entropy : Int → Int → Nat → Nat) :
    List Station → Except String (List Station)
  | [] => .ok []
  | st :: rest =>
    match st.receive_passengers stationKeys minute (entropy minute st.position) with
    | .error e => .error e
    | .ok st2 =>
      match receiveAll stationKeys minute entropy rest with
      | .error e => .error e
      | .ok rest2 => .ok (st2 :: rest2)

/-- The trains loop of `Subway.next`: each train advances in
registration order, threading the subway state and the metric lists. -/
def advanceAll (minute : Int) :
    List Train → Subway → List Int → List Int →
    Except String (List Train × Subway × List Int × List Int)
  | [], sub, el, dep => .ok ([], sub, el, dep)
  | t :: rest, sub, el, dep =>
    match t.advance sub minute el dep with
    | .error e => .error e
    | .ok r =>
      match advanceAll minute rest r.2.1 r.2.2.1 r.2.2.2 with
      | .error e => .error e
      | .ok r2 => .ok (r.1 :: r2.1, r2.2.1, r2.2.2.1, r2.2.2.2)

/-- One iteration of the main loop: `subway.next()` then `MINUTE += 1`. -/
def SimState.step (entropy : Int → Int → Nat → Nat) (s : SimState) :
    Except String SimState :=
  match receiveAll s.subway.stationKeys s.minute entropy s.subway.stations with
  | .error e => .error e
  | .ok stations2 =>
    let sub2 := { s.subway with stations := stations2 }
    match advanceAll s.minute s.subway.trains sub2 s.elapsed_times s.departure_time with
    | .error e => .error e
    | .ok r =>
      .ok { subway := { r.2.1 with trains := r.1 }, minute := s.minute + 1,
            elapsed_times := r.2.2.1, departure_time := r.2.2.2 }

/-- The main loop: `for i in range(k): subway.next(); MINUTE += 1`. -/
def runSim (entropy : Int → Int → Nat → Nat) : Nat → SimState → Except String SimState
  | 0, s => .ok s
  | Nat.succ k, s =>
    match SimState.step entropy s with
    | .error e => .error e
    | .ok s2 => runSim entropy k s2

/-- The final report `sum(ELAPSED_TIMES) / len(ELAPSED_TIMES)`: Python
raises `ZeroDivisionError` when the list is empty. -/
def meanTime (l : List Int) : Except String Rat :=
  if l.length = 0 then .error "ZeroDivisionError"
  else .ok ((l.sum : Rat) / (l.length : Rat))

/-- The track layout constant `E` of the script. -/
def trackE : List Int :=
  [1, 0, 0, 0, 0, 0, 0, 1, 0, 0, 0, 0, 0, 0, 1, 0, 0, 0, 0, 0, 1, 0, 0, 0, 0, 0, 0, 1, 0,
   0, 0, 0, 0, 1, 0, 0, 0, 0, 1, 0, 0, 0, 0, 0, 0, 0, 0, 1]

/-- The train list constant `TRAINS` of the script (all default fields:
no passengers, `should_depart = True`). -/
def initialTrains : List Train :=
  [{ position := 0, direction := 1 }, { position := 16, direction := 1 },
   { position := 32, direction := 1 }, { position := 16, direction := -1 },
   { position := 32, direction := -1 }, { position := 47, direction := -1 }]

/-- Reflected sawtooth: the expected position, after `k` ticks, of an
unobstructed train that starts at position 0 moving right on a track of
length `L`. -/
def sawtooth (L k : Nat) : Int :=
  let m := k % (2 * (L - 1))
  if m ≤ L - 1 then (m : Int) else ((2 * (L - 1) - m : Nat) : Int)

/-- Direction of the sawtooth train after `k` ticks. -/
def sawdir (L k : Nat) : Int :=
  if k % (2 * (L - 1)) < L - 1 then 1 else -1

/-- A train state from which the motion step keeps the bounds
assertions true: position on the track, direction a unit step, and the
direction pointing inward at either end of the line. -/
def GoodTrain (L : Int) (t : Train) : Prop :=
  0 ≤ t.position ∧ t.position < L ∧ (t.direction = 1 ∨ t.direction = -1) ∧
  (t.position = 0 → t.direction = 1) ∧ (t.position = L - 1 → t.direction = -1)

instance (L : Int) (t : Train) : Decidable (GoodTrain L t) := by
  unfold GoodTrain; infer_instance

/-- Zero entropy: every random draw takes its smallest value, so every
station generates zero passengers each tick. -/
def entropy0 : Int → Int → Nat → Nat := fun _ _ _ => 0

/-- The loop of `Train.take_passengers`, characterised: boarding
partitions the waiting list by the `boards` condition. -/
theorem takeFold (t : Train) (minute : Int) (l : List Passenger) :
    ∀ (A S : List Passenger) (D : List Int),
    l.foldl
      (fun (acc : List Passenger × List Passenger × List Int) passenger =>
        if boards t passenger then
          (acc.1 ++ [passenger], acc.2.1, acc.2.2 ++ [passenger.time_elapsed minute])
        else
          (acc.1, acc.2.1 ++ [passenger], acc.2.2))
      (A, S, D) =
    (A ++ l.filter (boards t), S ++ l.filter (fun p => ! boards t p),
     D ++ (l.filter (boards t)).map (fun p => p.time_elapsed minute)) := by
  induction l with
  | nil => intro A S D; simp
  | cons p rest ih =>
    intro A S D
    by_cases hb : boards t p = true <;>
      simp [List.filter_cons, hb, ih, List.append_assoc]

/-- Closed form of `Train.take_passengers`. -/
theorem take_passengers_eq (t : Train) (st : Station) (minute : Int) (dep : List Int) :
    t.take_passengers st minute dep =
      ({ t with passengers := t.passengers ++ st.passengers.filter (boards t) },
       { st with passengers := st.passengers.filter (fun p => ! boards t p) },
       dep ++ (st.passengers.filter (boards t)).map (fun p => p.time_elapsed minute)) := by
  simp [Train.take_passengers, takeFold]

/-- The loop of `Train.leave_passengers`, characterised: alighting
partitions the onboard list by `destination == position`. -/
theorem leaveFold (t : Train) (minute : Int) (l : List Passenger) :
    ∀ (A : List Passenger) (D : List Int),
    l.foldl
      (fun (acc : List Passenger × List Int) passenger =>
        if passenger.destination = t.position then
          (acc.1, acc.2 ++ [passenger.time_elapsed minute])
        else
          (acc.1 ++ [passenger], acc.2))
      (A, D) =
    (A ++ l.filter (fun p => ! decide (p.destination = t.position)),
     D ++ (l.filter (fun p => decide (p.destination = t.position))).map
       (fun p => p.time_elapsed minute)) := by
  induction l with
  | nil => intro A D; simp
  | cons p rest ih =>
    intro A D
    by_cases hb : p.destination = t.position <;>
      simp [List.filter_cons, hb, ih, List.append_assoc]

/-- Closed form of `Train.leave_passengers`. -/
theorem leave_passengers_eq (t : Train) (minute : Int) (el : List Int) :
    t.leave_passengers minute el =
      ({ t with passengers := t.passengers.filter (fun p => ! decide (p.destination = t.position)) },
       el ++ (t.passengers.filter (fun p => decide (p.destination = t.position))).map
         (fun p => p.time_elapsed minute)) := by
  simp only [Train.leave_passengers]
  rw [leaveFold]
  simp

/-- The `boards` condition, read as the propositional side rule of the
specification. -/
theorem boards_iff (t : Train) (p : Passenger) :
    boards t p = true ↔ ((t.position < p.destination) ↔ t.direction = 1) := by
  by_cases h1 : t.direction = 1 <;> by_cases h2 : t.position < p.destination <;>
    simp [boards, h1, h2]

/-- Counting both sides of a boolean partition of a list. -/
theorem count_filter_split {α : Type} [DecidableEq α] (f : α → Bool) (l : List α) :
    ∀ a : α, (l.filter f).count a + (l.filter (fun x => ! f x)).count a = l.count a := by
  induction l with
  | nil => intro a; simp
  | cons b bs ih =>
    intro a
    have h := ih a
    by_cases hf : f b = true
    · have h1 : List.filter f (b :: bs) = b :: List.filter f bs := by
        simp [List.filter_cons, hf]
      have h2 : List.filter (fun x => ! f x) (b :: bs) = List.filter (fun x => ! f x) bs := by
        simp [List.filter_cons, hf]
      rw [h1, h2, List.count_cons, List.count_cons]
      rcases eq_or_ne b a with hab | hab <;> simp [hab] <;> omega
    · have h1 : List.filter f (b :: bs) = List.filter f bs := by
        simp [List.filter_cons, hf]
      have h2 : List.filter (fun x => ! f x) (b :: bs) = b :: List.filter (fun x => ! f x) bs := by
        simp [List.filter_cons, hf]
      rw [h1, h2, List.count_cons, List.count_cons]
      rcases eq_or_ne b a with hab | hab <;> simp [hab] <;> omega

/-- A failing `sample1` can only raise `ValueError`. -/
theorem sample1_error_eq (pop : List Int) (e : Nat) (s : String)
    (h : sample1 pop e = .error s) : s = "ValueError" := by
  unfold sample1 at h
  by_cases hp : pop.isEmpty
  · simp [hp] at h
    exact h.symm
  · simp [hp] at h

/-- A successful `sample1` returns an element of the population. -/
theorem sample1_ok_mem (pop : List Int) (e : Nat) (x : Int)
    (h : sample1 pop e = .ok x) : x ∈ pop := by
  unfold sample1 at h
  by_cases hp : pop.isEmpty
  · simp [hp] at h
  · simp [hp] at h
    have hne : pop ≠ [] := by simpa [List.isEmpty_iff] using hp
    have hlen : 0 < pop.length := List.length_pos.2 hne
    have hidx : e % pop.length < pop.length := Nat.mod_lt _ hlen
    rw [← h, List.getElem?_eq_getElem hidx]
    simp

/-- Every element of the population is a possible `sample1` outcome. -/
theorem sample1_surjective (pop : List Int) (d : Int) (hd : d ∈ pop) :
    ∃ e, sample1 pop e = .ok d := by
  obtain ⟨⟨n, hn⟩, hget⟩ := List.mem_iff_get.1 hd
  refine ⟨n, ?_⟩
  unfold sample1
  have hemp : pop.isEmpty = false := by
    simp [List.isEmpty_eq_false]
    intro hnil
    rw [hnil] at hd
    cases hd
  simp only [hemp, Bool.false_eq_true, if_false, ite_false]
  rw [Nat.mod_eq_of_lt hn, List.getD_eq_getElem?_getD, List.getElem?_eq_getElem hn]
  simp only [Option.getD_some, Except.ok.injEq]
  simpa using hget

/-- A failing `receiveLoop` can only raise `ValueError`. -/
theorem receiveLoop_error_eq (destinations : List Int) (minute : Int) (entropy : Nat → Nat) :
    ∀ (k i : Nat) (acc : List Passenger) (e : String),
    receiveLoop destinations minute entropy i k acc = .error e → e = "ValueError" := by
  intro k
  induction k with
  | zero => intro i acc e h; cases h
  | succ k ih =>
    intro i acc e h
    cases hs : sample1 destinations (entropy i) with
    | error e2 =>
      simp only [receiveLoop, hs] at h
      cases h
      exact sample1_error_eq destinations (entropy i) e hs
    | ok dst =>
      simp only [receiveLoop, hs] at h
      exact ih (i + 1) (acc ++ [{ destination := dst, start := minute }]) e h

/-- A successful `receiveLoop` appends exactly `k` fresh passengers,
each created now with a destination from the drawn population. -/
theorem receiveLoop_ok_spec (destinations : List Int) (minute : Int) (entropy : Nat → Nat) :
    ∀ (k i : Nat) (acc ps : List Passenger),
    receiveLoop destinations minute entropy i k acc = .ok ps →
    ps.length = acc.length + k ∧
    ∀ p ∈ ps, p ∈ acc ∨ (p.start = minute ∧ p.destination ∈ destinations) := by
  intro k
  induction k with
  | zero =>
    intro i acc ps h
    simp only [receiveLoop, Except.ok.injEq] at h
    subst h
    exact ⟨rfl, fun p hp => Or.inl hp⟩
  | succ k ih =>
    intro i acc ps h
    cases hs : sample1 destinations (entropy i) with
    | error e2 =>
      simp only [receiveLoop, hs] at h
      cases h
    | ok dst =>
      simp only [receiveLoop, hs] at h
      have hrec := ih (i + 1) (acc ++ [{ destination := dst, start := minute }]) ps h
      constructor
      · rw [hrec.1]
        simp
        omega
      · intro p hp
        rcases hrec.2 p hp with hmem | hnew
        · rcases List.mem_append.1 hmem with h1 | h2
          · exact Or.inl h1
          · simp at h2
            subst h2
            exact Or.inr ⟨rfl, sample1_ok_mem destinations (entropy i) dst hs⟩
        · exact Or.inr hnew

/-- Unfolding of `Station.receive_passengers`. -/
theorem receive_passengers_def (st : Station) (keys : List Int) (minute : Int)
    (entropy : Nat → Nat) :
    st.receive_passengers keys minute entropy =
      match receiveLoop (keys.filter (fun q => decide (q ≠ st.position))) minute
          (fun i => entropy (i + 1)) 0 (randint 0 10 (entropy 0)).toNat st.passengers with
      | .error e => .error e
      | .ok ps => .ok { st with passengers := ps } := rfl

/-- A failing `Station.receive_passengers` can only raise `ValueError`. -/
theorem receive_passengers_error_eq (st : Station) (keys : List Int) (minute : Int)
    (entropy : Nat → Nat) (e : String)
    (h : st.receive_passengers keys minute entropy = .error e) : e = "ValueError" := by
  rw [receive_passengers_def] at h
  cases hr : receiveLoop (keys.filter (fun q => decide (q ≠ st.position))) minute
      (fun i => entropy (i + 1)) 0 (randint 0 10 (entropy 0)).toNat st.passengers with
  | error e2 =>
    rw [hr] at h
    cases h
    exact receiveLoop_error_eq _ _ _ _ _ _ _ hr
  | ok ps =>
    rw [hr] at h
    cases h

/-- A successful `Station.receive_passengers` keeps the position and
appends valid fresh passengers. -/
theorem receive_passengers_ok_spec (st : Station) (keys : List Int) (minute : Int)
    (entropy : Nat → Nat) (st' : Station)
    (h : st.receive_passengers keys minute entropy = .ok st') :
    st'.position = st.position ∧
    st'.passengers.length = st.passengers.length + (randint 0 10 (entropy 0)).toNat ∧
    ∀ p ∈ st'.passengers, p ∈ st.passengers ∨
      (p.start = minute ∧ p.destination ∈ keys ∧ p.destination ≠ st.position) := by
  rw [receive_passengers_def] at h
  cases hr : receiveLoop (keys.filter (fun q => decide (q ≠ st.position))) minute
      (fun i => entropy (i + 1)) 0 (randint 0 10 (entropy 0)).toNat st.passengers with
  | error e2 => rw [hr] at h; cases h
  | ok ps =>
    rw [hr] at h
    have hspec := receiveLoop_ok_spec _ _ _ _ _ _ _ hr
    simp only [Except.ok.injEq] at h
    subst h
    refine ⟨rfl, hspec.1, ?_⟩
    intro p hp
    rcases hspec.2 p hp with hmem | ⟨hstart, hdest⟩
    · exact Or.inl hmem
    · rw [List.mem_filter] at hdest
      refine Or.inr ⟨hstart, hdest.1, ?_⟩
      simpa using hdest.2

/-- Inversion for a successful motion step: it can only come from the
in-bounds branch, and the result is the moved train. -/
theorem move_ok_inv (t : Train) (sub : Subway) (t2 : Train) (h : t.move sub = .ok t2) :
    (sub.positions.length : Int) - 1 ≠ 0 ∧
    0 ≤ t.position + t.direction ∧ t.position + t.direction < (sub.positions.length : Int) ∧
    t2 = { t with
           position := t.position + t.direction
           direction := if (t.position + t.direction) % ((sub.positions.length : Int) - 1) = 0
             then -t.direction else t.direction
           should_depart := false } := by
  unfold Train.move at h
  by_cases hm : (sub.positions.length : Int) - 1 = 0
  · simp [hm] at h
  · by_cases hlt : t.position + t.direction < (sub.positions.length : Int)
    · by_cases hge : 0 ≤ t.position + t.direction
      · simp only [hm, hlt, hge, if_true, if_false, ite_true, ite_false, if_neg hm,
          if_pos hlt, if_pos hge, Except.ok.injEq] at h
        exact ⟨hm, hge, hlt, h.symm⟩
      · simp [hm, hlt, hge] at h
    · simp [hm, hlt] at h

/-- The in-bounds motion step evaluated. -/
theorem move_eq (t : Train) (sub : Subway)
    (hm : (sub.positions.length : Int) - 1 ≠ 0)
    (hlt : t.position + t.direction < (sub.positions.length : Int))
    (hge : 0 ≤ t.position + t.direction) :
    t.move sub = .ok { t with
      position := t.position + t.direction
      direction := if (t.position + t.direction) % ((sub.positions.length : Int) - 1) = 0
        then -t.direction else t.direction
      should_depart := false } := by
  simp [Train.move, hm, hlt, hge]

/-- When the train is dwelling or away from every station, `advance` is
the motion step. -/
theorem advance_move (t : Train) (sub : Subway) (minute : Int) (el dep : List Int)
    (hcase : t.should_depart = true ∨ sub.getStation t.position = none) :
    t.advance sub minute el dep =
      match t.move sub with
      | .error e => .error e
      | .ok t2 => .ok (t2, sub, el, dep) := by
  rcases hcase with hd | hn
  · cases hg : sub.getStation t.position <;> simp [Train.advance, hg, hd]
  · simp [Train.advance, hn]

/-- The sawtooth starts at the origin. -/
theorem sawtooth_zero (L : Nat) : sawtooth L 0 = 0 := by
  unfold sawtooth
  rw [Nat.zero_mod, if_pos (Nat.zero_le _)]
  rfl

/-- The sawtooth starts moving right. -/
theorem sawdir_zero (L : Nat) (hL : 2 ≤ L) : sawdir L 0 = 1 := by
  unfold sawdir
  rw [Nat.zero_mod, if_pos (by omega)]

/-- One step of the reflected sawtooth: adding the current direction
reaches the next sawtooth value, the flip rule of the motion step
produces the next direction, and the new value stays on the track. -/
theorem saw_step (L : Nat) (hL : 2 ≤ L) (k : Nat) :
    sawtooth L k + sawdir L k = sawtooth L (k + 1) ∧
    (if (sawtooth L k + sawdir L k) % ((L : Int) - 1) = 0
      then -(sawdir L k) else sawdir L k) = sawdir L (k + 1) ∧
    0 ≤ sawtooth L k + sawdir L k ∧
    sawtooth L k + sawdir L k < (L : Int) := by
  have hper : 0 < 2 * (L - 1) := by omega
  obtain ⟨m, hmlt, hmeq⟩ : ∃ m, m < 2 * (L - 1) ∧ k % (2 * (L - 1)) = m :=
    ⟨_, Nat.mod_lt _ hper, rfl⟩
  have hm' : (k + 1) % (2 * (L - 1)) = if m + 1 < 2 * (L - 1) then m + 1 else 0 := by
    rw [Nat.add_mod, hmeq, Nat.mod_eq_of_lt (show 1 < 2 * (L - 1) by omega)]
    by_cases hc : m + 1 < 2 * (L - 1)
    · rw [if_pos hc, Nat.mod_eq_of_lt hc]
    · rw [if_neg hc]
      have h2p : m + 1 = 2 * (L - 1) := by omega
      rw [h2p, Nat.mod_self]
  simp only [sawtooth, sawdir, hmeq, hm']
  rcases Nat.lt_trichotomy m (L - 1) with hc1 | hc1 | hc1
  · -- rising part of the sawtooth
    have hin : m + 1 < 2 * (L - 1) := by omega
    rw [if_pos (show m ≤ L - 1 by omega), if_pos hc1, if_pos hin]
    by_cases hc2 : m + 1 < L - 1
    · rw [if_pos (show m + 1 ≤ L - 1 by omega), if_pos hc2]
      have hmod : ((m : Int) + 1) % ((L : Int) - 1) = (m : Int) + 1 :=
        Int.emod_eq_of_lt (by omega) (by omega)
      rw [if_neg (by rw [hmod]; omega)]
      refine ⟨?_, ?_, ?_, ?_⟩ <;> omega
    · rw [if_pos (show m + 1 ≤ L - 1 by omega), if_neg hc2]
      have hmod : ((m : Int) + 1) % ((L : Int) - 1) = 0 := by
        have h0 : (m : Int) + 1 = (L : Int) - 1 := by omega
        rw [h0]
        exact Int.emod_self
      rw [if_pos hmod]
      refine ⟨?_, ?_, ?_, ?_⟩ <;> omega
  · -- top of the sawtooth
    rw [if_pos (show m ≤ L - 1 by omega), if_neg (show ¬(m < L - 1) by omega)]
    by_cases hc2 : m + 1 < 2 * (L - 1)
    · rw [if_pos hc2, if_neg (show ¬(m + 1 ≤ L - 1) by omega),
        if_neg (show ¬(m + 1 < L - 1) by omega)]
      have hmod : ((m : Int) + -1) % ((L : Int) - 1) = (m : Int) + -1 :=
        Int.emod_eq_of_lt (by omega) (by omega)
      rw [if_neg (by rw [hmod]; omega)]
      refine ⟨?_, ?_, ?_, ?_⟩ <;> omega
    · rw [if_neg hc2, if_pos (show 0 ≤ L - 1 by omega), if_pos (show 0 < L - 1 by omega)]
      have hmod : ((m : Int) + -1) % ((L : Int) - 1) = 0 := by
        have h0 : (m : Int) + -1 = 0 := by omega
        rw [h0]
        exact Int.zero_emod _
      rw [if_pos hmod]
      refine ⟨?_, ?_, ?_, ?_⟩ <;> omega
  · -- falling part of the sawtooth
    rw [if_neg (show ¬(m ≤ L - 1) by omega), if_neg (show ¬(m < L - 1) by omega)]
    by_cases hc2 : m + 1 < 2 * (L - 1)
    · rw [if_pos hc2, if_neg (show ¬(m + 1 ≤ L - 1) by omega),
        if_neg (show ¬(m + 1 < L - 1) by omega)]
      have hmod : (((2 * (L - 1) - m : Nat) : Int) + -1) % ((L : Int) - 1)
          = ((2 * (L - 1) - m : Nat) : Int) + -1 :=
        Int.emod_eq_of_lt (by omega) (by omega)
      rw [if_neg (by rw [hmod]; omega)]
      refine ⟨?_, ?_, ?_, ?_⟩ <;> omega
    · rw [if_neg hc2, if_pos (show 0 ≤ L - 1 by omega), if_pos (show 0 < L - 1 by omega)]
      have hmod : (((2 * (L - 1) - m : Nat) : Int) + -1) % ((L : Int) - 1) = 0 := by
        have h0 : ((2 * (L - 1) - m : Nat) : Int) + -1 = 0 := by omega
        rw [h0]
        exact Int.zero_emod _
      rw [if_pos hmod]
      refine ⟨?_, ?_, ?_, ?_⟩ <;> omega

/-- Goodness depends only on position and direction. -/
theorem GoodTrain_of_eq (L : Int) (t t' : Train) (hp : t'.position = t.position)
    (hd : t'.direction = t.direction) (hg : GoodTrain L t) : GoodTrain L t' := by
  unfold GoodTrain at hg ⊢
  omega

/-- From a good state the motion step succeeds and lands in a good
state one step away. -/
theorem move_good (t : Train) (sub : Subway)
    (h2 : 2 ≤ sub.positions.length)
    (hg : GoodTrain (sub.positions.length : Int) t) :
    ∃ t2, t.move sub = .ok t2 ∧ GoodTrain (sub.positions.length : Int) t2 ∧
      t2.position = t.position + t.direction := by
  have hL2 : (2 : Int) ≤ (sub.positions.length : Int) := by exact_mod_cast h2
  obtain ⟨hp0, hpL, hdir, he0, heL⟩ := hg
  have hm : (sub.positions.length : Int) - 1 ≠ 0 := by omega
  have hlt : t.position + t.direction < (sub.positions.length : Int) := by
    rcases hdir with h1 | h1
    · by_cases hpos : t.position = (sub.positions.length : Int) - 1
      · have := heL hpos; omega
      · omega
    · omega
  have hge : 0 ≤ t.position + t.direction := by
    rcases hdir with h1 | h1
    · omega
    · by_cases hpos : t.position = 0
      · have := he0 hpos; omega
      · omega
  refine ⟨Train.mk (t.position + t.direction)
      (if (t.position + t.direction) % ((sub.positions.length : Int) - 1) = 0
        then -t.direction else t.direction) t.passengers false,
    move_eq t sub hm hlt hge, ?_, rfl⟩
  refine ⟨hge, hlt, ?_, ?_, ?_⟩
  · show (if (t.position + t.direction) % ((sub.positions.length : Int) - 1) = 0
        then -t.direction else t.direction) = 1 ∨
      (if (t.position + t.direction) % ((sub.positions.length : Int) - 1) = 0
        then -t.direction else t.direction) = -1
    by_cases hif : (t.position + t.direction) % ((sub.positions.length : Int) - 1) = 0
    · rw [if_pos hif]; omega
    · rw [if_neg hif]; exact hdir
  · show t.position + t.direction = 0 →
      (if (t.position + t.direction) % ((sub.positions.length : Int) - 1) = 0
        then -t.direction else t.direction) = 1
    intro h0
    have hmod : (t.position + t.direction) % ((sub.positions.length : Int) - 1) = 0 := by
      rw [h0]; exact Int.zero_emod _
    rw [if_pos hmod]
    rcases hdir with h1 | h1 <;> omega
  · show t.position + t.direction = (sub.positions.length : Int) - 1 →
      (if (t.position + t.direction) % ((sub.positions.length : Int) - 1) = 0
        then -t.direction else t.direction) = -1
    intro h0
    have hmod : (t.position + t.direction) % ((sub.positions.length : Int) - 1) = 0 := by
      rw [h0]; exact Int.emod_self
    rw [if_pos hmod]
    rcases hdir with h1 | h1 <;> omega

/-- From a good state `advance` succeeds, preserves the track, and
lands in a good state. -/
theorem advance_good (t : Train) (sub : Subway) (minute : Int) (el dep : List Int)
    (h2 : 2 ≤ sub.positions.length)
    (hg : GoodTrain (sub.positions.length : Int) t) :
    ∃ r, t.advance sub minute el dep = .ok r ∧
      r.2.1.positions = sub.positions ∧
      GoodTrain (sub.positions.length : Int) r.1 := by
  cases hst : sub.getStation t.position with
  | none =>
    obtain ⟨t2, hmv, hg2, _⟩ := move_good t sub h2 hg
    refine ⟨(t2, sub, el, dep), ?_, rfl, hg2⟩
    rw [advance_move t sub minute el dep (Or.inr hst), hmv]
  | some station =>
    by_cases hd : t.should_depart = true
    · obtain ⟨t2, hmv, hg2, _⟩ := move_good t sub h2 hg
      refine ⟨(t2, sub, el, dep), ?_, rfl, hg2⟩
      rw [advance_move t sub minute el dep (Or.inl hd), hmv]
    · have hd' : t.should_depart = false := by
        cases hb : t.should_depart
        · rfl
        · exact absurd hb hd
      refine ⟨({ ((t.leave_passengers minute el).1.take_passengers station minute dep).1
                  with should_depart := true },
               sub.setStation
                 ((t.leave_passengers minute el).1.take_passengers station minute dep).2.1,
               (t.leave_passengers minute el).2,
               ((t.leave_passengers minute el).1.take_passengers station minute dep).2.2),
        ?_, rfl, ?_⟩
      · simp [Train.advance, hst, hd']
      · refine GoodTrain_of_eq _ _ _ ?_ ?_ hg <;>
          simp [take_passengers_eq, leave_passengers_eq]

/-- The trains loop from an all-good state: it succeeds, preserves the
track, and every advanced train is good. -/
theorem advanceAll_good (minute : Int) :
    ∀ (trains : List Train) (sub : Subway) (el dep : List Int),
    2 ≤ sub.positions.length →
    (∀ t ∈ trains, GoodTrain (sub.positions.length : Int) t) →
    ∃ r, advanceAll minute trains sub el dep = .ok r ∧
      r.2.1.positions = sub.positions ∧
      ∀ t ∈ r.1, GoodTrain (sub.positions.length : Int) t := by
  intro trains
  induction trains with
  | nil =>
    intro sub el dep h2 hg
    exact ⟨([], sub, el, dep), rfl, rfl, by simp⟩
  | cons t rest ih =>
    intro sub el dep h2 hg
    obtain ⟨r, hadv, hpos, hgr⟩ :=
      advance_good t sub minute el dep h2 (hg t (List.Mem.head _))
    have h2' : 2 ≤ r.2.1.positions.length := by rw [hpos]; exact h2
    have hg' : ∀ t' ∈ rest, GoodTrain (r.2.1.positions.length : Int) t' := by
      rw [hpos]
      exact fun t' ht' => hg t' (List.Mem.tail _ ht')
    obtain ⟨r2, hall, hpos2, hgr2⟩ := ih r.2.1 r.2.2.1 r.2.2.2 h2' hg'
    refine ⟨(r.1 :: r2.1, r2.2.1, r2.2.2.1, r2.2.2.2), ?_, ?_, ?_⟩
    · simp only [advanceAll, hadv, hall]
    · rw [hpos2, hpos]
    · intro t' ht'
      rcases List.mem_cons.1 ht' with heq | hmem
      · subst heq; exact hgr
      · have := hgr2 t' hmem
        rw [hpos] at this
        exact this

/-- A failing stations loop can only raise `ValueError`. -/
theorem receiveAll_error_eq (keys : List Int) (minute : Int)
    (entropy : Int → Int → Nat → Nat) :
    ∀ (stations : List Station) (e : String),
    receiveAll keys minute entropy stations = .error e → e = "ValueError" := by
  intro stations
  induction stations with
  | nil => intro e h; cases h
  | cons st rest ih =>
    intro e h
    cases hr : st.receive_passengers keys minute (entropy minute st.position) with
    | error e2 =>
      simp only [receiveAll, hr] at h
      cases h
      exact receive_passengers_error_eq _ _ _ _ _ hr
    | ok st2 =>
      simp only [receiveAll, hr] at h
      cases hrest : receiveAll keys minute entropy rest with
      | error e2 =>
        rw [hrest] at h
        cases h
        exact ih _ hrest
      | ok r =>
        rw [hrest] at h
        cases h

/-- One tick from an all-good state: either it succeeds with the track
preserved and all trains good, or the random sampler raised
`ValueError` (never the bounds assertions). -/
theorem step_good (entropy : Int → Int → Nat → Nat) (s : SimState)
    (h2 : 2 ≤ s.subway.positions.length)
    (hg : ∀ t ∈ s.subway.trains, GoodTrain (s.subway.positions.length : Int) t) :
    (∃ s', SimState.step entropy s = .ok s' ∧
      s'.subway.positions = s.subway.positions ∧
      ∀ t ∈ s'.subway.trains, GoodTrain (s.subway.positions.length : Int) t) ∨
    SimState.step entropy s = .error "ValueError" := by
  cases hrecv : receiveAll s.subway.stationKeys s.minute entropy s.subway.stations with
  | error e =>
    right
    have he := receiveAll_error_eq _ _ _ _ _ hrecv
    subst he
    simp only [SimState.step, hrecv]
  | ok stations2 =>
    left
    obtain ⟨r, hall, hpos, hgr⟩ := advanceAll_good s.minute s.subway.trains
      { s.subway with stations := stations2 } s.elapsed_times s.departure_time h2 hg
    refine ⟨⟨{ r.2.1 with trains := r.1 }, s.minute + 1, r.2.2.1, r.2.2.2⟩, ?_, hpos, hgr⟩
    simp only [SimState.step, hrecv, hall]

/-- One tick of a stationless simulation with a single train is the
train's motion step. -/
theorem step_one_train (entropy : Int → Int → Nat → Nat) (s : SimState) (t t2 : Train)
    (hs : s.subway.stations = []) (ht : s.subway.trains = [t])
    (hmv : t.move s.subway = .ok t2) :
    SimState.step entropy s =
      .ok ⟨⟨s.subway.positions, [], [t2]⟩, s.minute + 1,
           s.elapsed_times, s.departure_time⟩ := by
  have hrecv : receiveAll s.subway.stationKeys s.minute entropy s.subway.stations
      = .ok [] := by
    rw [hs]
    rfl
  have hget2 : (⟨s.subway.positions, [], [t]⟩ : Subway).getStation t.position = none := by
    simp [Subway.getStation]
  have hmv2 : t.move ⟨s.subway.positions, [], [t]⟩ = .ok t2 := hmv
  have hadv : t.advance ⟨s.subway.positions, [], [t]⟩ s.minute
      s.elapsed_times s.departure_time
      = .ok (t2, (⟨s.subway.positions, [], [t]⟩ : Subway),
             s.elapsed_times, s.departure_time) := by
    rw [advance_move _ _ _ _ _ (Or.inr hget2), hmv2]
  simp only [SimState.step, hrecv, ht, advanceAll, hadv]

/-- A single unobstructed train that is on the sawtooth trajectory
stays on it, for any number of ticks. -/
theorem runSim_sawtooth (entropy : Int → Int → Nat → Nat) (L : Nat) (hL : 2 ≤ L) :
    ∀ (k j : Nat) (s : SimState),
    s.subway.stations = [] →
    s.subway.positions.length = L →
    (∃ ps sd, s.subway.trains = [Train.mk (sawtooth L j) (sawdir L j) ps sd]) →
    ∃ s', runSim entropy k s = .ok s' ∧
      s'.subway.stations = [] ∧
      s'.subway.positions = s.subway.positions ∧
      ∃ ps sd, s'.subway.trains
        = [Train.mk (sawtooth L (j + k)) (sawdir L (j + k)) ps sd] := by
  intro k
  induction k with
  | zero =>
    intro j s h1 h2 h3
    exact ⟨s, rfl, h1, rfl, by simpa using h3⟩
  | succ k ih =>
    intro j s h1 h2 h3
    obtain ⟨ps, sd, htr⟩ := h3
    obtain ⟨hsum, hdir, hge, hlt⟩ := saw_step L hL j
    have hlen : ((s.subway.positions.length : Nat) : Int) = (L : Int) := by rw [h2]
    have hmv : (Train.mk (sawtooth L j) (sawdir L j) ps sd).move s.subway
        = .ok (Train.mk (sawtooth L (j + 1)) (sawdir L (j + 1)) ps false) := by
      have hm : ((s.subway.positions.length : Nat) : Int) - 1 ≠ 0 := by
        rw [hlen]
        omega
      have hlt2 : (Train.mk (sawtooth L j) (sawdir L j) ps sd).position
          + (Train.mk (sawtooth L j) (sawdir L j) ps sd).direction
          < ((s.subway.positions.length : Nat) : Int) := by
        show sawtooth L j + sawdir L j < _
        rw [hlen]
        exact hlt
      have hge2 : 0 ≤ (Train.mk (sawtooth L j) (sawdir L j) ps sd).position
          + (Train.mk (sawtooth L j) (sawdir L j) ps sd).direction := hge
      rw [move_eq _ s.subway hm hlt2 hge2]
      have heq : ({ Train.mk (sawtooth L j) (sawdir L j) ps sd with
          position := (Train.mk (sawtooth L j) (sawdir L j) ps sd).position
            + (Train.mk (sawtooth L j) (sawdir L j) ps sd).direction
          direction := if ((Train.mk (sawtooth L j) (sawdir L j) ps sd).position
                + (Train.mk (sawtooth L j) (sawdir L j) ps sd).direction)
                % (((s.subway.positions.length : Nat) : Int) - 1) = 0
            then -(Train.mk (sawtooth L j) (sawdir L j) ps sd).direction
            else (Train.mk (sawtooth L j) (sawdir L j) ps sd).direction
          should_depart := false } : Train)
          = Train.mk (sawtooth L (j + 1)) (sawdir L (j + 1)) ps false := by
        show Train.mk (sawtooth L j + sawdir L j)
            (if (sawtooth L j + sawdir L j) % (((s.subway.positions.length : Nat) : Int) - 1) = 0
              then -(sawdir L j) else sawdir L j) ps false = _
        rw [hlen, hdir, hsum]
      rw [heq]
    have hstep := step_one_train entropy s _ _ h1 htr hmv
    have hnext := ih (j + 1)
      ⟨⟨s.subway.positions, [], [Train.mk (sawtooth L (j + 1)) (sawdir L (j + 1)) ps false]⟩,
        s.minute + 1, s.elapsed_times, s.departure_time⟩
      rfl h2 ⟨ps, false, rfl⟩
    obtain ⟨s', hrun, ha, hb, hc⟩ := hnext
    refine ⟨s', ?_, ha, hb, ?_⟩
    · simp only [runSim, hstep]
      exact hrun
    · rw [show j + (k + 1) = j + 1 + k from by omega]
      exact hc

/-- C3: the dwell state machine of `Train.advance`: a train at a
station with the dwell flag clear exchanges, sets the flag, and keeps
its position; in every other case it clears the flag and moves one
position in its direction; a constructed train defaults to a set dwell
flag; and on track `[1,0,1]` a train at position 0, direction `+1`,
flag clear, exchanges on tick 1 (flag set, position 0) and moves to
position 1 on tick 2 (flag cleared). -/
theorem c3_dwell_state_machine :
    (∀ p d : Int, ({ position := p, direction := d } : Train).should_depart = true) ∧
    (∀ (t : Train) (sub : Subway) (minute : Int) (el dep : List Int) (station : Station),
      sub.getStation t.position = some station → t.should_depart = false →
      ∃ r, t.advance sub minute el dep = .ok r ∧
        r.1.position = t.position ∧ r.1.direction = t.direction ∧
        r.1.should_depart = true) ∧
    (∀ (t : Train) (sub : Subway) (minute : Int) (el dep : List Int)
      (r : Train × Subway × List Int × List Int),
      (t.should_depart = true ∨ sub.getStation t.position = none) →
      t.advance sub minute el dep = .ok r →
      r.1.should_depart = false ∧ r.1.position = t.position + t.direction) ∧
    runSim entropy0 1
        ⟨Subway.init [1, 0, 1]
          [{ position := 0, direction := 1, passengers := [], should_depart := false }],
         0, [], []⟩
      = .ok ⟨{ positions := [1, 0, 1],
               stations := [{ passengers := [], position := 0 },
                            { passengers := [], position := 2 }],
               trains := [{ position := 0, direction := 1, passengers := [],
                            should_depart := true }] }, 1, [], []⟩ ∧
    runSim entropy0 2
        ⟨Subway.init [1, 0, 1]
          [{ position := 0, direction := 1, passengers := [], should_depart := false }],
         0, [], []⟩
      = .ok ⟨{ positions := [1, 0, 1],
               stations := [{ passengers := [], position := 0 },
                            { passengers := [], position := 2 }],
               trains := [{ position := 1, direction := 1, passengers := [],
                            should_depart := false }] }, 2, [], []⟩ := by
  refine ⟨fun p d => rfl, ?_, ?_, rfl, rfl⟩
  · intro t sub minute el dep station hst hd
    refine ⟨({ ((t.leave_passengers minute el).1.take_passengers station minute dep).1
                with should_depart := true },
             sub.setStation ((t.leave_passengers minute el).1.take_passengers station minute dep).2.1,
             (t.leave_passengers minute el).2,
             ((t.leave_passengers minute el).1.take_passengers station minute dep).2.2),
        ?_, ?_, ?_, rfl⟩
    · simp [Train.advance, hst, hd]
    · simp [take_passengers_eq, leave_passengers_eq]
    · simp [take_passengers_eq, leave_passengers_eq]
  · intro t sub minute el dep r hcase hadv
    rw [advance_move t sub minute el dep hcase] at hadv
    cases hmv : t.move sub with
    | error e => rw [hmv] at hadv; cases hadv
    | ok t2 =>
      rw [hmv] at hadv
      simp only [Except.ok.injEq] at hadv
      have h := move_ok_inv t sub t2 hmv
      rw [← hadv, h.2.2.2]
      exact ⟨rfl, rfl⟩

theorem c3_dwell_state_machine_witness :
    (∃ r, Train.advance
        { position := 0, direction := 1, passengers := [], should_depart := false }
        (Subway.init [1, 0, 1] []) 0 [] [] = .ok r ∧
      r.1.position = 0 ∧ r.1.direction = 1 ∧ r.1.should_depart = true) ∧
    ({ position := 1, direction := -1, passengers := [], should_depart := false } : Train).should_depart
        = false ∧
    ({ position := 1, direction := -1, passengers := [], should_depart := false } : Train).position
        = 2 + -1 := by
  refine ⟨?_, ?_⟩
  · have h := c3_dwell_state_machine.2.1
      { position := 0, direction := 1, passengers := [], should_depart := false }
      (Subway.init [1, 0, 1] []) 0 [] [] { passengers := [], position := 0 } (by rfl) rfl
    rcases h with ⟨r, h1, h2, h3, h4⟩
    exact ⟨r, h1, h2, h3, h4⟩
  · exact c3_dwell_state_machine.2.2.1
      { position := 2, direction := -1, passengers := [], should_depart := true }
      (Subway.init [1, 0, 1] []) 0 [] []
      ({ position := 1, direction := -1, passengers := [], should_depart := false },
        Subway.init [1, 0, 1] [], [], []) (Or.inl rfl) (by rfl)

/-- C2: during an exchange, a waiting passenger boards exactly when
`(train.position < passenger.destination)` agrees with
`(train.direction == +1)`; boarding passengers leave the station's
waiting list, are appended to the train's onboard list, and their
elapsed times are recorded into the boarding-wait metric, while every
other passenger stays waiting; the new waiting list and the boarded
passengers are disjoint, and occurrence counts are conserved, so no
passenger is both waiting and onboard and none boards twice. -/
theorem c2_boarding_rule (t : Train) (st : Station) (minute : Int) (dep : List Int) :
    (∀ p : Passenger, boards t p = true ↔ ((t.position < p.destination) ↔ t.direction = 1)) ∧
    (t.take_passengers st minute dep).1.passengers
      = t.passengers ++ st.passengers.filter (boards t) ∧
    (t.take_passengers st minute dep).2.1.passengers
      = st.passengers.filter (fun p => ! boards t p) ∧
    (t.take_passengers st minute dep).2.2
      = dep ++ (st.passengers.filter (boards t)).map (fun p => p.time_elapsed minute) ∧
    (∀ p ∈ st.passengers, boards t p = true →
      p ∈ (t.take_passengers st minute dep).1.passengers ∧
      p ∉ (t.take_passengers st minute dep).2.1.passengers) ∧
    (∀ p ∈ st.passengers, boards t p = false →
      p ∈ (t.take_passengers st minute dep).2.1.passengers ∧
      p ∉ st.passengers.filter (boards t)) ∧
    (∀ p : Passenger,
      (st.passengers.filter (boards t)).count p
        + (t.take_passengers st minute dep).2.1.passengers.count p
        = st.passengers.count p) ∧
    (∀ p : Passenger,
      ¬(p ∈ (t.take_passengers st minute dep).2.1.passengers ∧
        p ∈ st.passengers.filter (boards t))) := by
  rw [take_passengers_eq]
  refine ⟨boards_iff t, rfl, rfl, rfl, ?_, ?_, ?_, ?_⟩
  · intro p hp hb
    constructor
    · simp [List.mem_filter, hp, hb]
    · simp [List.mem_filter, hb]
  · intro p hp hb
    constructor
    · simp [List.mem_filter, hp, hb]
    · simp [List.mem_filter, hb]
  · intro p
    change (st.passengers.filter (boards t)).count p
        + (st.passengers.filter (fun q => ! boards t q)).count p = st.passengers.count p
    exact count_filter_split (boards t) st.passengers p
  · intro p hmem
    rcases hmem with ⟨h1, h2⟩
    rw [List.mem_filter] at h1 h2
    rcases h1 with ⟨_, hb1⟩
    rcases h2 with ⟨_, hb2⟩
    simp [hb2] at hb1

/-- C5: in an exchange, alighting happens before boarding (the advance
of a non-dwelling train at a station is exactly `leave_passengers`
followed by `take_passengers`); exactly the onboard passengers whose
destination equals the train's position are removed, each recording its
elapsed time into the travel-time metric, and all other onboard
passengers remain, so every passenger that alights does so at a
position equal to its destination. -/
theorem c5_alighting_rule (t : Train) (minute : Int) (el : List Int) :
    (t.leave_passengers minute el).1.passengers
      = t.passengers.filter (fun p => ! decide (p.destination = t.position)) ∧
    (t.leave_passengers minute el).2
      = el ++ (t.passengers.filter (fun p => decide (p.destination = t.position))).map
          (fun p => p.time_elapsed minute) ∧
    (∀ p ∈ t.passengers, p.destination = t.position →
      p ∉ (t.leave_passengers minute el).1.passengers) ∧
    (∀ p ∈ (t.leave_passengers minute el).1.passengers,
      p ∈ t.passengers ∧ p.destination ≠ t.position) ∧
    (∀ (sub : Subway) (station : Station) (dep : List Int),
      sub.getStation t.position = some station → t.should_depart = false →
      t.advance sub minute el dep =
        .ok ({ ((t.leave_passengers minute el).1.take_passengers station minute dep).1
                 with should_depart := true },
             sub.setStation
               ((t.leave_passengers minute el).1.take_passengers station minute dep).2.1,
             (t.leave_passengers minute el).2,
             ((t.leave_passengers minute el).1.take_passengers station minute dep).2.2)) := by
  refine ⟨?_, ?_, ?_, ?_, ?_⟩
  · rw [leave_passengers_eq]
  · rw [leave_passengers_eq]
  · intro p hp hdest
    rw [leave_passengers_eq]
    simp [List.mem_filter, hdest]
  · intro p hp
    rw [leave_passengers_eq] at hp
    simp only [List.mem_filter] at hp
    rcases hp with ⟨hmem, hcond⟩
    refine ⟨hmem, ?_⟩
    simpa using hcond
  · intro sub station dep hst hd
    simp [Train.advance, hst, hd]

theorem c2_boarding_rule_witness :
    ({ position := 0, direction := 1, passengers := [], should_depart := false } : Train).position
        < (⟨2, 0⟩ : Passenger).destination ∧
    (⟨2, 0⟩ : Passenger) ∈
      (Train.take_passengers { position := 0, direction := 1, passengers := [], should_depart := false }
        { passengers := [⟨2, 0⟩], position := 0 } 3 []).1.passengers := by
  have h := c2_boarding_rule
    { position := 0, direction := 1, passengers := [], should_depart := false }
    { passengers := [⟨2, 0⟩], position := 0 } 3 []
  have hb : boards { position := 0, direction := 1, passengers := [], should_depart := false }
      (⟨2, 0⟩ : Passenger) = true := by decide
  exact ⟨by decide, ((h.2.2.2.2.1 ⟨2, 0⟩ (by decide) hb).1)⟩

theorem c5_alighting_rule_witness :
    (⟨5, 0⟩ : Passenger) ∉
      (Train.leave_passengers
        { position := 5, direction := 1, passengers := [⟨5, 0⟩, ⟨7, 0⟩], should_depart := false }
        9 []).1.passengers := by
  have h := c5_alighting_rule
    { position := 5, direction := 1, passengers := [⟨5, 0⟩, ⟨7, 0⟩], should_depart := false } 9 []
  exact h.2.2.1 ⟨5, 0⟩ (by decide) (by decide)

/-- C7: demand generation draws a count in `[0, 10]` (every such count
being a possible draw), draws destinations from exactly the set of
station keys minus the station's own position (every such destination
being a possible draw), and on success appends that many passengers,
each with `start` equal to the current tick and a destination that is a
station key different from the origin station. -/
theorem c7_demand_generation (st : Station) (keys : List Int) (minute : Int)
    (entropy : Nat → Nat) :
    (0 ≤ randint 0 10 (entropy 0) ∧ randint 0 10 (entropy 0) ≤ 10) ∧
    (∀ v : Int, 0 ≤ v → v ≤ 10 → ∃ e, randint 0 10 e = v) ∧
    (∀ d ∈ keys.filter (fun q => decide (q ≠ st.position)),
      ∃ e, sample1 (keys.filter (fun q => decide (q ≠ st.position))) e = .ok d) ∧
    (∀ st', st.receive_passengers keys minute entropy = .ok st' →
      st'.passengers.length = st.passengers.length + (randint 0 10 (entropy 0)).toNat ∧
      ∀ p ∈ st'.passengers, p ∈ st.passengers ∨
        (p.start = minute ∧ p.destination ∈ keys ∧ p.destination ≠ st.position)) := by
  refine ⟨?_, ?_, ?_, ?_⟩
  · unfold randint
    have h11 : entropy 0 % (10 - 0 + 1 : Int).toNat < 11 := Nat.mod_lt _ (by norm_num)
    constructor <;> omega
  · intro v h0 h10
    refine ⟨v.toNat, ?_⟩
    unfold randint
    have hself : v.toNat % (10 - 0 + 1 : Int).toNat = v.toNat := Nat.mod_eq_of_lt (by omega)
    rw [hself]
    omega
  · intro d hd
    exact sample1_surjective _ d hd
  · intro st' h
    exact (receive_passengers_ok_spec st keys minute entropy st' h).2

theorem c7_demand_generation_witness :
    (∃ e, randint 0 10 e = 7) ∧
    (∃ e, sample1 ([0, 2].filter (fun q => decide (q ≠ ((⟨[], 0⟩ : Station)).position))) e
      = .ok 2) ∧
    ((⟨[⟨2, 7⟩], 0⟩ : Station).passengers.length
      = (⟨[], 0⟩ : Station).passengers.length + (randint 0 10 ((fun _ => 1) 0)).toNat) := by
  have h := c7_demand_generation ⟨[], 0⟩ [0, 2] 7 (fun _ => 1)
  exact ⟨h.2.1 7 (by decide) (by decide), h.2.2.1 2 (by decide),
    (h.2.2.2 ⟨[⟨2, 7⟩], 0⟩ (by rfl)).1⟩

/-- C10: on a track with exactly one station, that station's demand
generation raises `ValueError` on any tick whose drawn passenger count
is positive (the destination population is empty), and completes
normally, leaving the station unchanged, exactly when the drawn count
is 0. -/
theorem c10_single_station_valueerror (sub : Subway) (st : Station) (minute : Int)
    (entropy : Nat → Nat) (hs : sub.stations = [st]) :
    (0 < (randint 0 10 (entropy 0)).toNat →
      st.receive_passengers sub.stationKeys minute entropy = .error "ValueError") ∧
    ((randint 0 10 (entropy 0)).toNat = 0 →
      st.receive_passengers sub.stationKeys minute entropy = .ok st) := by
  have hk : sub.stationKeys = [st.position] := by simp [Subway.stationKeys, hs]
  rw [hk]
  have hd : ([st.position] : List Int).filter (fun q => decide (q ≠ st.position)) = [] := by
    simp
  constructor
  · intro hn
    obtain ⟨k, hk2⟩ : ∃ k, (randint 0 10 (entropy 0)).toNat = k + 1 :=
      ⟨(randint 0 10 (entropy 0)).toNat - 1, by omega⟩
    rw [receive_passengers_def, hd, hk2]
    simp [receiveLoop, sample1]
  · intro hn
    rw [receive_passengers_def, hd, hn]
    simp only [receiveLoop]

theorem c10_single_station_valueerror_witness :
    Station.receive_passengers ⟨[], 0⟩ (Subway.init [1] []).stationKeys 0 (fun _ => 1)
      = .error "ValueError" := by
  exact (c10_single_station_valueerror (Subway.init [1] []) ⟨[], 0⟩ 0 (fun _ => 1)
    (by rfl)).1 (by decide)

/-- C1: the code does not surface an empty travel-time metric as a
"no data" result: the final report raises `ZeroDivisionError` when no
passenger ever completed a trip (here: on the empty metric list, and at
the end of a 3-tick run with no trains, whose metric stays empty). -/
theorem c1_empty_metric_crashes :
    meanTime [] = .error "ZeroDivisionError" ∧
    (match runSim entropy0 3 ⟨Subway.init [1, 0, 1] [], 0, [], []⟩ with
      | .ok s => meanTime s.elapsed_times
      | .error e => .error e) = .error "ZeroDivisionError" := by
  exact ⟨rfl, rfl⟩

/-- C8: `time_elapsed` is `currentTick - creationTick`; it is monotone
and non-negative once the current tick is past the creation tick, so a
passenger created at tick 5 records boarding-wait 4 when boarding at
tick 9 and travel time 15 when alighting at tick 20, and for every
passenger with creation ≤ boarding ≤ alighting tick both recorded
values are non-negative with travel time ≥ boarding-wait time. -/
theorem c8_elapsed_times (d tc tb ta : Int) (h1 : tc ≤ tb) (h2 : tb ≤ ta) :
    (∀ m : Int, Passenger.time_elapsed ⟨d, tc⟩ m = m - tc) ∧
    0 ≤ Passenger.time_elapsed ⟨d, tc⟩ tb ∧
    0 ≤ Passenger.time_elapsed ⟨d, tc⟩ ta ∧
    Passenger.time_elapsed ⟨d, tc⟩ tb ≤ Passenger.time_elapsed ⟨d, tc⟩ ta ∧
    Passenger.time_elapsed ⟨d, 5⟩ 9 = 4 ∧
    Passenger.time_elapsed ⟨d, 5⟩ 20 = 15 := by
  refine ⟨fun m => rfl, ?_, ?_, ?_, ?_, ?_⟩ <;> simp only [Passenger.time_elapsed] <;> omega

theorem c8_elapsed_times_witness :
    0 ≤ Passenger.time_elapsed ⟨2, 5⟩ 9 ∧
    Passenger.time_elapsed ⟨2, 5⟩ 9 = 4 ∧
    Passenger.time_elapsed ⟨2, 5⟩ 20 = 15 := by
  have h := c8_elapsed_times 2 5 9 20 (by decide) (by decide)
  exact ⟨h.2.1, h.2.2.2.2.1, h.2.2.2.2.2⟩

/-- C9: the code never rejects an invalid configuration: `Subway`
construction on an empty track (or a track with no stations) succeeds
with no validation, and the run then steps normally instead of being
rejected before it starts. -/
theorem c9_no_config_validation :
    (Subway.init [] []).positions = [] ∧
    (Subway.init [] []).stations = [] ∧
    SimState.step entropy0 ⟨Subway.init [] [], 0, [], []⟩ = .ok ⟨Subway.init [] [], 1, [], []⟩ ∧
    SimState.step entropy0 ⟨Subway.init [0, 0] [{ position := 0, direction := 1 }], 0, [], []⟩ =
      .ok ⟨⟨[0, 0], [], [⟨1, -1, [], false⟩]⟩, 1, [], []⟩ := by
  exact ⟨rfl, rfl, rfl, rfl⟩

/-- C6: the motion step changes the position by exactly the direction,
and negates the direction exactly when the new position is a multiple
of `trackLength - 1`; consequently a single unobstructed train that
starts at position 0 moving right follows the reflected sawtooth
between 0 and `trackLength - 1` for any number of ticks (the line is a
bouncing segment, not a closed loop). -/
theorem c6_motion_sawtooth :
    (∀ (t : Train) (sub : Subway) (t2 : Train),
      (t.direction = 1 ∨ t.direction = -1) →
      t.move sub = .ok t2 →
      t2.position = t.position + t.direction ∧
        (t2.direction = -t.direction ↔
          (t.position + t.direction) % ((sub.positions.length : Int) - 1) = 0)) ∧
    (∀ (entropy : Int → Int → Nat → Nat) (s : SimState) (ps : List Passenger) (sd : Bool)
      (k : Nat),
      s.subway.stations = [] →
      2 ≤ s.subway.positions.length →
      s.subway.trains = [Train.mk 0 1 ps sd] →
      ∃ s', runSim entropy k s = .ok s' ∧
        s'.subway.trains.map (fun t => (t.position, t.direction))
          = [(sawtooth s.subway.positions.length k,
              sawdir s.subway.positions.length k)]) := by
  constructor
  · intro t sub t2 hdir hmv
    obtain ⟨hm, hge, hlt, ht2⟩ := move_ok_inv t sub t2 hmv
    subst ht2
    refine ⟨rfl, ?_⟩
    by_cases hif : (t.position + t.direction) % ((sub.positions.length : Int) - 1) = 0
    · simp [hif]
    · simp [hif]
      rcases hdir with h | h <;> omega
  · intro entropy s ps sd k h1 h2 h3
    have h3' : ∃ ps' sd', s.subway.trains
        = [Train.mk (sawtooth s.subway.positions.length 0)
            (sawdir s.subway.positions.length 0) ps' sd'] := by
      refine ⟨ps, sd, ?_⟩
      rw [h3, sawtooth_zero, sawdir_zero _ h2]
    obtain ⟨s', hrun, ha, hb, ps', sd', hc⟩ :=
      runSim_sawtooth entropy _ h2 k 0 s h1 rfl h3'
    refine ⟨s', hrun, ?_⟩
    rw [hc]
    simp

theorem c6_motion_sawtooth_witness :
    ((Train.mk 1 1 [] false).position
      = (Train.mk 0 1 ([] : List Passenger) true).position
        + (Train.mk 0 1 ([] : List Passenger) true).direction ∧
     ((Train.mk 1 1 [] false).direction
        = -(Train.mk 0 1 ([] : List Passenger) true).direction ↔
      ((Train.mk 0 1 ([] : List Passenger) true).position
          + (Train.mk 0 1 ([] : List Passenger) true).direction)
        % (((Subway.init [0, 0, 0] []).positions.length : Int) - 1) = 0)) ∧
    (∃ s', runSim entropy0 5
        ⟨Subway.init [0, 0, 0] [Train.mk 0 1 [] true], 0, [], []⟩ = .ok s' ∧
      s'.subway.trains.map (fun t => (t.position, t.direction))
        = [(sawtooth 3 5, sawdir 3 5)]) := by
  have ha := c6_motion_sawtooth.1 (Train.mk 0 1 [] true) (Subway.init [0, 0, 0] [])
    (Train.mk 1 1 [] false) (Or.inl rfl) (by rfl)
  have hb := c6_motion_sawtooth.2 entropy0
    ⟨Subway.init [0, 0, 0] [Train.mk 0 1 [] true], 0, [], []⟩ [] true 5 rfl (by decide) rfl
  exact ⟨ha, hb⟩

/-- C4 (amended): on a track of length at least 2, from any
configuration in which every train is on the track with a unit
direction pointing inward at the two ends, every run keeps every
train's position within `[0, trackLength-1]` after every tick, and the
only possible failure is the random sampler's `ValueError` — the
fatal bounds-assertion branch is never reached. -/
theorem c4_bounds_invariant (entropy : Int → Int → Nat → Nat) :
    ∀ (k : Nat) (s : SimState),
    2 ≤ s.subway.positions.length →
    (∀ t ∈ s.subway.trains, GoodTrain (s.subway.positions.length : Int) t) →
    (∀ s', runSim entropy k s = .ok s' →
      s'.subway.positions = s.subway.positions ∧
      ∀ t ∈ s'.subway.trains,
        0 ≤ t.position ∧ t.position < (s.subway.positions.length : Int)) ∧
    (∀ e, runSim entropy k s = .error e → e = "ValueError") := by
  intro k
  induction k with
  | zero =>
    intro s h2 hg
    constructor
    · intro s' h
      cases h
      exact ⟨rfl, fun t ht => ⟨(hg t ht).1, (hg t ht).2.1⟩⟩
    · intro e h
      cases h
  | succ k ih =>
    intro s h2 hg
    rcases step_good entropy s h2 hg with ⟨s1, hstep, hpos1, hg1⟩ | herr
    · have h2' : 2 ≤ s1.subway.positions.length := by rw [hpos1]; exact h2
      have hg1' : ∀ t ∈ s1.subway.trains,
          GoodTrain (s1.subway.positions.length : Int) t := by
        rw [hpos1]; exact hg1
      have hih := ih s1 h2' hg1'
      constructor
      · intro s' h
        simp only [runSim, hstep] at h
        obtain ⟨ha, hb⟩ := hih.1 s' h
        refine ⟨ha.trans hpos1, ?_⟩
        intro t ht
        have hbt := hb t ht
        rw [hpos1] at hbt
        exact hbt
      · intro e h
        simp only [runSim, hstep] at h
        exact hih.2 e h
    · constructor
      · intro s' h
        simp only [runSim, herr] at h
        cases h
      · intro e h
        simp only [runSim, herr] at h
        cases h
        rfl

theorem c4_bounds_invariant_witness :
    0 ≤ (Train.mk 2 (-1) [] true).position ∧
    (Train.mk 2 (-1) [] true).position
      < (((Subway.init [1, 0, 1]
            [Train.mk 0 1 [] true, Train.mk 2 (-1) [] true]).positions.length : Nat) : Int) := by
  have h := (c4_bounds_invariant entropy0 3
      ⟨Subway.init [1, 0, 1] [Train.mk 0 1 [] true, Train.mk 2 (-1) [] true], 0, [], []⟩
      (by decide) (by decide)).1
    ⟨{ positions := [1, 0, 1],
       stations := [{ passengers := [], position := 0 }, { passengers := [], position := 2 }],
       trains := [Train.mk 2 (-1) [] true, Train.mk 0 1 [] true] }, 3, [], []⟩ (by rfl)
  exact h.2 (Train.mk 2 (-1) [] true) (List.Mem.head _)

/-- C4 counterexample: not every configuration keeps train positions in
bounds.  On track `[1,0,1]`, a train starting at position 0 with
direction `-1` moves to position `-1` on the first tick and the bounds
assertion fails, so the fatal-failure branch is reached. -/
theorem c4_bounds_counterexample :
    runSim entropy0 1 ⟨Subway.init [1, 0, 1] [{ position := 0, direction := -1 }], 0, [], []⟩ =
      .error "AssertionError" := by
  exact rfl

end Osiris
